import Mathlib

/-!
Verification of the pyzy grade-reconciliation tool against its
natural-language specification.  The definitions below are shallow
embeddings of the Python functions in src/pyzy/common.py,
src/pyzy/merge.py, src/pyzy/score.py and merge_grades.py:
strings are Lean strings (character lists), pandas scalar cells are an
explicit PyVal type with a NaN constructor, Python floats are modelled
as exact decimal rationals, dictionaries keyed by strings are functions
to Option, and Python sets are Finsets.
-/

namespace Pyzy

/-! ### Python string primitives -/

/-- Whitespace characters recognised by the Python default strip and split. -/
def pyIsSpace (c : Char) : Bool :=
  c = ' ' || c = '\t' || c = '\n' || c = '\x0d' || c = '\x0b' || c = '\x0c'

/-- Model of the Python str.strip with no arguments, on character lists:
drop whitespace from the front, then from the back. -/
def pyStripL (l : List Char) : List Char :=
  List.rdropWhile pyIsSpace (l.dropWhile pyIsSpace)

/-- Model of the Python str.strip with no arguments. -/
def pyStrip (s : String) : String :=
  String.mk (pyStripL s.data)

/-- Model of the Python str.lower (ASCII letters only). -/
def pyLower (s : String) : String :=
  String.mk (s.data.map Char.toLower)

/-- Model of str.replace(c, empty) chained over a set of characters:
removes every occurrence of the given characters. -/
def removeChars (s : String) (cs : List Char) : String :=
  String.mk (s.data.filter (fun c => !cs.contains c))

/-- Model of the Python membership test for a single character in a string. -/
def pyContainsL (l : List Char) (c : Char) : Bool :=
  l.any (fun x => x == c)

/-- Check whether the first list is a prefix of the second. -/
def startsWithL : List Char → List Char → Bool
  | [], _ => true
  | _ :: _, [] => false
  | a :: as, b :: bs => a == b && startsWithL as bs

/-- Check whether the first list occurs contiguously inside the second. -/
def pyInL (needle : List Char) : List Char → Bool
  | [] => needle.isEmpty
  | c :: cs => startsWithL needle (c :: cs) || pyInL needle cs

/-- Model of the Python substring membership test: needle in hay. -/
def pyIn (needle hay : String) : Bool :=
  pyInL needle.data hay.data

/-- Tokeniser worker for pySplitWs; acc holds the current token reversed. -/
def splitWsAux : List Char → List Char → List String
  | [], acc => if acc.isEmpty then [] else [String.mk acc.reverse]
  | c :: cs, acc =>
    if pyIsSpace c then
      if acc.isEmpty then splitWsAux cs []
      else String.mk acc.reverse :: splitWsAux cs []
    else splitWsAux cs (c :: acc)

/-- Model of the Python str.split with no arguments: split on whitespace
runs, discarding empty tokens. -/
def pySplitWs (s : String) : List String :=
  splitWsAux s.data []

/-! ### Decimal rendering of integers, model of the Python str(int(x)) -/

/-- Decimal digit character for a value below ten. -/
def digitChar : Nat → Char
  | 0 => '0'
  | 1 => '1'
  | 2 => '2'
  | 3 => '3'
  | 4 => '4'
  | 5 => '5'
  | 6 => '6'
  | 7 => '7'
  | 8 => '8'
  | 9 => '9'
  | _ => '*'

/-- Fuelled decimal rendering of a natural number (most significant first). -/
def natDigitsAux : Nat → Nat → List Char
  | 0, _ => []
  | fuel + 1, n =>
    if n < 10 then [digitChar n]
    else natDigitsAux fuel (n / 10) ++ [digitChar (n % 10)]

/-- Decimal rendering of a natural number. -/
def pyNatStr (n : Nat) : String :=
  String.mk (natDigitsAux (n + 1) n)

/-- Decimal rendering of an integer, model of the Python str on int. -/
def pyIntStrL (n : Int) : List Char :=
  if n < 0 then '-' :: natDigitsAux (n.natAbs + 1) n.natAbs
  else natDigitsAux (n.natAbs + 1) n.natAbs

/-- Decimal rendering of an integer as a string. -/
def pyIntStr (n : Int) : String :=
  String.mk (pyIntStrL n)

/-! ### Scalar cell values

Cells read from a CSV by pandas are modelled by PyVal: a missing value
(Python None), a float NaN, an integer, or a string.  Python floats other
than NaN reach the functions below only through str(), so a float scalar
is represented by the string of its decimal rendering. -/

/-- Scalar cell value as seen by the Python code. -/
inductive PyVal where
  | none
  | nan
  | intV (n : Int)
  | strV (s : String)
deriving DecidableEq

/-- Model of pd.isna on a scalar. -/
def pyIsNa : PyVal → Bool
  | .none => true
  | .nan => true
  | .intV _ => false
  | .strV _ => false

/-- Python truthiness of a scalar value; note that NaN is truthy. -/
def pyTruthyVal : PyVal → Bool
  | .none => false
  | .nan => true
  | .intV n => n ≠ 0
  | .strV s => s ≠ ""

/-- Model of the Python str() on a scalar value. -/
def pyStr : PyVal → String
  | .none => "None"
  | .nan => "nan"
  | .intV n => pyIntStr n
  | .strV s => s

/-- Python truthiness of an optional string (None and the empty string
are falsy). -/
def pyTruthyS : Option String → Bool
  | Option.none => false
  | Option.some s => s ≠ ""

/-- Model of the Python expression a or b on optional strings: the first
operand if truthy, otherwise the second. -/
def pyOrStr (a b : Option String) : Option String :=
  if pyTruthyS a then a else b

/-! ### Decimal float parsing, model of the Python float constructor

Python floats are modelled as exact decimal rationals: the grammar
sign digits [ dot digits ] [ exponent ] is parsed exactly instead of
rounding to IEEE doubles, and there is no overflow to infinity.  The
inf and nan words and underscore digit separators are not modelled;
every claim below evaluates the parser only on plain decimal literals,
where the exact model and IEEE parsing agree on integrality. -/

/-- Numeric value of a digit list under base ten, most significant first. -/
def digitsToNat (l : List Char) : Nat :=
  l.foldl (fun a c => 10 * a + (c.toNat - 48)) 0

/-- Parse an optional exponent suffix: empty means exponent zero; an e or
E followed by an optionally signed digit run consumes the whole rest. -/
def parseExpPart : List Char → Option Int
  | [] => Option.some 0
  | c :: cs =>
    if c = 'e' || c = 'E' then
      match cs with
      | '+' :: ds =>
        let p := ds.span Char.isDigit
        if p.1.isEmpty || !p.2.isEmpty then Option.none
        else Option.some (digitsToNat p.1 : Int)
      | '-' :: ds =>
        let p := ds.span Char.isDigit
        if p.1.isEmpty || !p.2.isEmpty then Option.none
        else Option.some (-(digitsToNat p.1 : Int))
      | ds =>
        let p := ds.span Char.isDigit
        if p.1.isEmpty || !p.2.isEmpty then Option.none
        else Option.some (digitsToNat p.1 : Int)
    else Option.none

/-- Parse an unsigned decimal body, returning mantissa digits value and a
decimal exponent. -/
def parseBody (cs : List Char) : Option (Nat × Int) :=
  let ip := cs.span Char.isDigit
  match ip.2 with
  | '.' :: r2 =>
    let fp := r2.span Char.isDigit
    if ip.1.isEmpty && fp.1.isEmpty then Option.none
    else
      (parseExpPart fp.2).map
        (fun e => (digitsToNat (ip.1 ++ fp.1), e - (fp.1.length : Int)))
  | rest =>
    if ip.1.isEmpty then Option.none
    else (parseExpPart rest).map (fun e => (digitsToNat ip.1, e))

/-- Model of the Python float constructor on a string: a signed mantissa
M and a decimal exponent e representing the exact value M times ten to
the e, or None when parsing raises ValueError. -/
def pyFloatParts? (s : String) : Option (Int × Int) :=
  match pyStripL s.data with
  | '+' :: rest => (parseBody rest).map (fun p => ((p.1 : Int), p.2))
  | '-' :: rest => (parseBody rest).map (fun p => (-(p.1 : Int), p.2))
  | rest => (parseBody rest).map (fun p => ((p.1 : Int), p.2))

/-- Whether the exact decimal value M times ten to the e is an integer,
the model of the Python test id_float == int(id_float). -/
def floatIsIntegral (p : Int × Int) : Bool :=
  0 ≤ p.2 || p.1 % ((10 : Int) ^ (-p.2).toNat) = 0

/-- Integer value of an integral exact decimal float, the model of the
Python int() truncation applied to it. -/
def floatIntVal (p : Int × Int) : Int :=
  if 0 ≤ p.2 then p.1 * (10 : Int) ^ p.2.toNat
  else p.1 / ((10 : Int) ^ (-p.2).toNat)

/-! ### Identity resolver, from src/pyzy/common.py -/

/-- Shallow embedding of normalize_student_id (common.py lines 33 to 55):
None for missing or NaN; otherwise stringify and strip; if the string
contains a dot and parses as an integral float, re-render the integer
part; otherwise keep the stripped string. -/
def normalize_student_id (v : PyVal) : Option String :=
  if pyIsNa v then Option.none
  else
    let id_str := pyStrip (pyStr v)
    if pyContainsL id_str.data '.' then
      match pyFloatParts? id_str with
      | Option.some p =>
        if floatIsIntegral p then Option.some (pyIntStr (floatIntVal p))
        else Option.some id_str
      | Option.none => Option.some id_str
    else Option.some id_str

/-- Re-inject the result of normalize_student_id as a scalar, for
composing the function with itself. -/
def toPyVal : Option String → PyVal
  | Option.none => PyVal.none
  | Option.some s => PyVal.strV s

/-- Shallow embedding of extract_username_from_email (common.py lines 75
to 84): empty string for missing, falsy or at-sign-free values, else the
lowercased trimmed local part. -/
def extract_username_from_email (v : PyVal) : String :=
  if pyIsNa v || !pyTruthyVal v || !pyContainsL (pyStr v).data '@' then ""
  else pyLower (pyStrip (String.mk ((pyStr v).data.takeWhile (fun c => c ≠ '@'))))

/-! ### Column detectors, from src/pyzy/common.py and merge_grades.py -/

/-- Header folding used by the school-email and username detectors:
lowercase, then remove spaces, underscores and hyphens. -/
def canonHdr (c : String) : String :=
  removeChars (pyLower c) [' ', '_', '-']

/-- Pattern folding used by the school-email and username detectors:
remove spaces, underscores and hyphens (patterns are already lowercase). -/
def canonHdrPat (p : String) : String :=
  removeChars p [' ', '_', '-']

/-- Alias patterns of find_email_column. -/
def emailPatterns : List String :=
  ["school email", "schoolemail", "school_email"]

/-- Shallow embedding of find_email_column (common.py lines 87 to 101):
first header whose folded form equals a folded school-email alias. -/
def find_email_column (cols : List String) : Option String :=
  cols.find? (fun c => emailPatterns.any (fun p => canonHdrPat p == canonHdr c))

/-- Alias patterns of find_username_column (merge.py lines 21 to 32). -/
def usernamePatterns : List String :=
  ["username", "user name", "user_name"]

/-- Shallow embedding of find_username_column: first header whose folded
form equals a folded username alias. -/
def find_username_column (cols : List String) : Option String :=
  cols.find? (fun c => usernamePatterns.any (fun p => canonHdrPat p == canonHdr c))

/-- Header folding used by the student-id detector: lowercase, then
remove spaces and underscores only. -/
def canonId (c : String) : String :=
  removeChars (pyLower c) [' ', '_']

/-- Pattern folding used by the student-id detector. -/
def canonIdPat (p : String) : String :=
  removeChars p [' ', '_']

/-- Alias patterns of find_student_id_column. -/
def idPatterns : List String :=
  ["student id", "studentid", "student_id", "sid",
   "id", "student number", "student_number"]

/-- Per-header test of find_student_id_column: some alias pattern is a
substring of the folded header or the folded header is a substring of
the alias pattern. -/
def matchesIdPattern (c : String) : Bool :=
  idPatterns.any (fun p => pyIn (canonIdPat p) (canonId c) || pyIn (canonId c) (canonIdPat p))

/-- Shallow embedding of find_student_id_column (common.py lines 58 to
72): first header matching some alias by bidirectional substring
containment after folding. -/
def find_student_id_column (cols : List String) : Option String :=
  cols.find? matchesIdPattern

/-! ### Column ordering, from src/pyzy/merge.py sort_assignment_columns -/

/-- Rank of an assignment type, the assignment_type_order lookup with
default 99 (merge.py lines 43 and 50). -/
def assignTypeOrder (t : String) : Nat :=
  if t = "PA" then 0
  else if t = "CA" then 1
  else if t = "IL" then 2
  else if t = "OL" then 3
  else 99

/-- Shallow embedding of the anchored regular-expression match
W digits whitespace (PA or CA or IL or OL), case-insensitive, applied to
the stripped header (merge.py line 46); yields the week number and the
type rank. -/
def parseAssignCol (col : String) : Option (Nat × Nat) :=
  match pyStripL col.data with
  | [] => Option.none
  | c :: rest =>
    if c = 'W' || c = 'w' then
      let ds := rest.span Char.isDigit
      if ds.1.isEmpty then Option.none
      else
        let ws := ds.2.span pyIsSpace
        if ws.1.isEmpty then Option.none
        else
          match ws.2 with
          | a :: b :: _ =>
            let ty := String.mk [a.toUpper, b.toUpper]
            if ty = "PA" || ty = "CA" || ty = "IL" || ty = "OL" then
              Option.some (digitsToNat ds.1, assignTypeOrder ty)
            else Option.none
          | _ => Option.none
    else Option.none

/-- Ascending order on (week, type rank) key pairs. -/
def keyLe (a b : Nat × Nat) : Prop :=
  a.1 < b.1 ∨ (a.1 = b.1 ∧ a.2 ≤ b.2)

instance : DecidableRel keyLe := fun a b => by
  unfold keyLe
  exact inferInstance

/-- Order on tagged columns (name with parsed key), comparing keys. -/
def tagLe (x y : String × Nat × Nat) : Prop :=
  keyLe x.2 y.2

instance : DecidableRel tagLe := fun x y => by
  unfold tagLe
  exact inferInstance

instance : IsTotal (String × Nat × Nat) tagLe := by
  constructor
  intro a b
  unfold tagLe keyLe
  omega

instance : IsTrans (String × Nat × Nat) tagLe := by
  constructor
  intro a b c
  unfold tagLe keyLe
  omega

/-- Tag every assignment-shaped column with its parsed key, preserving
header order (merge.py lines 45 to 53, assignment branch). -/
def taggedCols (cols : List String) : List (String × Nat × Nat) :=
  cols.filterMap (fun c => (parseAssignCol c).map (fun k => (c, k)))

/-- Shallow embedding of sort_assignment_columns (merge.py lines 35 to
59) on the column-name sequence: non-assignment columns in original
order, then assignment columns stably sorted by (week, type rank); the
stable sort of the Python list.sort is modelled by insertion sort. -/
def sort_assignment_columns (cols : List String) : List String :=
  cols.filter (fun c => (parseAssignCol c).isNone) ++
    (List.insertionSort tagLe (taggedCols cols)).map (fun x => x.1)

/-! ### Merge engine, from src/pyzy/merge.py merge_grades_from_assignments

A lecture (destination) table is abstracted to its resolved id, username
and email columns: presence flags plus the cell of each row in those
columns.  A source (assignment) table is abstracted likewise; its id
column is always present because files without one are skipped. -/

/-- Cells of one destination row in the resolved identity columns. -/
structure LecRow where
  idCell : PyVal
  usernameCell : PyVal
  emailCell : PyVal
deriving DecidableEq

/-- Destination table: which identity columns were found, and the rows. -/
structure LecTable where
  hasId : Bool
  hasUsername : Bool
  hasEmail : Bool
  rows : List LecRow
deriving DecidableEq

/-- Cells of one source row in the resolved identity columns. -/
structure SrcRow where
  idCell : PyVal
  emailCell : PyVal
deriving DecidableEq

/-- Source table: whether a school-email column was found, and the rows. -/
structure SrcTable where
  hasEmail : Bool
  rows : List SrcRow
deriving DecidableEq

/-- Build the id and username lookup maps of a destination table
(merge.py lines 171 to 188): normalized truthy ids map to the row index,
and the username from the username column (when present and not NaN) or
else from the email column maps to the row index; later rows overwrite
earlier ones. -/
def buildMaps (t : LecTable) : (String → Option Nat) × (String → Option Nat) :=
  t.rows.enum.foldl
    (fun maps ir =>
      let idx := ir.1
      let r := ir.2
      let smap :=
        if t.hasId then
          match normalize_student_id r.idCell with
          | Option.some sid =>
            if sid ≠ "" then (fun s => if s = sid then Option.some idx else maps.1 s)
            else maps.1
          | Option.none => maps.1
        else maps.1
      let uname : Option String :=
        if t.hasUsername && !pyIsNa r.usernameCell then
          Option.some (pyLower (pyStrip (pyStr r.usernameCell)))
        else if t.hasEmail then Option.some (extract_username_from_email r.emailCell)
        else Option.none
      let umap :=
        match uname with
        | Option.some u =>
          if u ≠ "" then (fun s => if s = u then Option.some idx else maps.2 s)
          else maps.2
        | Option.none => maps.2
      (smap, umap))
    ((fun _ => Option.none), (fun _ => Option.none))

/-- How a source row was matched to a destination row. -/
inductive Method where
  | byId
  | byEmail
deriving DecidableEq

/-- Username branch of the row lookup: consult the username map only for
a truthy username. -/
def matchByUsername (umap : String → Option Nat) (uname : Option String) :
    Option (Nat × Method) :=
  if pyTruthyS uname then
    match umap (uname.getD "") with
    | Option.some i => Option.some (i, Method.byEmail)
    | Option.none => Option.none
  else Option.none

/-- Shallow embedding of the sequential row lookup shared by merge.py
lines 215 to 222 and merge_grades.py lines 528 to 537: a truthy id found
in the id map wins; only otherwise is the truthy username tried. -/
def matchRow (smap umap : String → Option Nat) (sid uname : Option String) :
    Option (Nat × Method) :=
  if pyTruthyS sid then
    match smap (sid.getD "") with
    | Option.some i => Option.some (i, Method.byId)
    | Option.none => matchByUsername umap uname
  else matchByUsername umap uname

/-- Per-assignment bookkeeping sets of merge_grades_from_assignments:
all observed truthy student keys, and the keys matched in some lecture
during this pass. -/
structure MergeAcc where
  allKeys : Finset (Option String)
  matchedKeys : Finset (Option String)
deriving DecidableEq

/-- Process one source row against one destination table (merge.py lines
202 to 244): record the truthy key among the observed keys, and on a
successful lookup also among the matched keys. -/
def processRow (smap umap : String → Option Nat) (hasEmail : Bool)
    (acc : MergeAcc) (r : SrcRow) : MergeAcc :=
  let sid := normalize_student_id r.idCell
  let uname := if hasEmail then Option.some (extract_username_from_email r.emailCell)
               else Option.none
  let key := pyOrStr sid uname
  let acc1 := if pyTruthyS key then MergeAcc.mk (insert key acc.allKeys) acc.matchedKeys
              else acc
  match matchRow smap umap sid uname with
  | Option.some _ => MergeAcc.mk acc1.allKeys (insert key acc1.matchedKeys)
  | Option.none => acc1

/-- Process one destination table for one source table (merge.py lines
154 to 244): tables with no identity column at all are skipped, else the
lookup maps are built and every source row is processed. -/
def processLecture (src : SrcTable) (acc : MergeAcc) (t : LecTable) : MergeAcc :=
  if !t.hasId && !t.hasEmail && !t.hasUsername then acc
  else
    let maps := buildMaps t
    src.rows.foldl (processRow maps.1 maps.2 src.hasEmail) acc

/-- Process one source table against every destination table, starting
from empty bookkeeping sets. -/
def processAssignment (lectures : List LecTable) (src : SrcTable) : MergeAcc :=
  lectures.foldl (processLecture src) (MergeAcc.mk ∅ ∅)

/-- Orphaned keys of one source table (merge.py line 279): keys observed
in the source but matched in no destination table during this pass. -/
def orphanedKeys (lectures : List LecTable) (src : SrcTable) : Finset (Option String) :=
  (processAssignment lectures src).allKeys \ (processAssignment lectures src).matchedKeys

/-- Whole-batch bookkeeping (merge.py lines 97 to 298): the globally
matched keys accumulated across source files, and the union of the
per-source orphaned key sets feeding the orphaned-rows report. -/
def mergeBatch (lectures : List LecTable) (srcs : List SrcTable) :
    Finset (Option String) × Finset (Option String) :=
  srcs.foldl
    (fun g src =>
      let acc := processAssignment lectures src
      (g.1 ∪ acc.matchedKeys, g.2 ∪ (acc.allKeys \ acc.matchedKeys)))
    (∅, ∅)

/-! ### Master-workflow id-mismatch records, from merge_grades.py -/

/-- Cells of one destination row in the master workflow, which matches
against a stored username column rather than an email column. -/
structure MMLecRow where
  idCell : PyVal
  usernameCell : PyVal
deriving DecidableEq

/-- Destination table of the master workflow. -/
structure MMLec where
  hasId : Bool
  hasUsername : Bool
  rows : List MMLecRow
deriving DecidableEq

/-- Build the id and username maps of the master workflow (merge_grades.py
lines 446 to 463): ids as in the assignment workflow; usernames from the
username column only, with no truthiness filter. -/
def buildMasterMaps (t : MMLec) : (String → Option Nat) × (String → Option Nat) :=
  t.rows.enum.foldl
    (fun maps ir =>
      let idx := ir.1
      let r := ir.2
      let smap :=
        if t.hasId then
          match normalize_student_id r.idCell with
          | Option.some sid =>
            if sid ≠ "" then (fun s => if s = sid then Option.some idx else maps.1 s)
            else maps.1
          | Option.none => maps.1
        else maps.1
      let umap :=
        if t.hasUsername && !pyIsNa r.usernameCell then
          let u := pyLower (pyStrip (pyStr r.usernameCell))
          (fun s => if s = u then Option.some idx else maps.2 s)
        else maps.2
      (smap, umap))
    ((fun _ => Option.none), (fun _ => Option.none))

/-- One failed-id-match report row (merge_grades.py lines 554 to 560):
the student display name, the raw master email cell if any, the master id
(Apparent ID), and the matched lecture id (Matched ID), which is the
Python None when normalization of the lecture cell returned None. -/
structure MismatchDetail where
  studentName : String
  email : Option PyVal
  apparentId : String
  matchedId : Option String
deriving DecidableEq

/-- Default row used to model the pandas positional cell access. -/
def mmDefaultRow : MMLecRow :=
  MMLecRow.mk PyVal.none PyVal.none

/-- Shallow embedding of the per-master-row matching step of
merge_grades_from_master (merge_grades.py lines 496 to 564): sequential
id-then-username lookup, and on a username match where the master row
carried a truthy id, one failed-id-match record holding the master id and
the normalized lecture id (or the string N/A when the lecture cell is
falsy or the lecture has no id column).  The display name is taken as
input; its assembly from name columns is not modelled. -/
def masterRowStep (t : MMLec) (smap umap : String → Option Nat)
    (hasMasterId hasMasterEmail : Bool) (masterIdCell masterEmailCell : PyVal)
    (masterName : String) : Option (Nat × Method) × List MismatchDetail :=
  let sid := if hasMasterId then normalize_student_id masterIdCell else Option.none
  let uname := if hasMasterEmail then Option.some (extract_username_from_email masterEmailCell)
               else Option.none
  match matchRow smap umap sid uname with
  | Option.some (idx, Method.byId) => (Option.some (idx, Method.byId), [])
  | Option.some (idx, Method.byEmail) =>
    if pyTruthyS sid then
      let raw : Option PyVal :=
        if t.hasId then Option.some (t.rows.getD idx mmDefaultRow).idCell else Option.none
      let matchedId : Option String :=
        match raw with
        | Option.some v =>
          if pyTruthyVal v then normalize_student_id v else Option.some "N/A"
        | Option.none => Option.some "N/A"
      (Option.some (idx, Method.byEmail),
        [MismatchDetail.mk masterName
          (if hasMasterEmail then Option.some masterEmailCell else Option.none)
          (sid.getD "") matchedId])
    else (Option.some (idx, Method.byEmail), [])
  | Option.none => (Option.none, [])

/-! ### Late-penalty evaluator, from src/pyzy/score.py late_score

Scores and day counts are modelled as exact rationals.  The info
dictionary is modelled by its matched flag and fractional deduction; the
human-readable rule description string is not modelled. -/

/-- One entry of a penalty list: the days-late threshold may be absent
(entries without it are skipped); the fractional deduction is read only
on a hit. -/
structure PenaltyEntry where
  daysLateThresh : Option Rat
  fracDeduction : Rat
deriving DecidableEq

/-- One adjustment rule: week, optional student and assignment keys, and
an optional penalty list. -/
structure Adjustment where
  week : Nat
  student : Option String
  assignment : Option String
  penalty : Option (List PenaltyEntry)
deriving DecidableEq

/-- Result info of late_score: whether some rule fired and the applied
fractional deduction. -/
structure AdjInfo where
  matched : Bool
  fracDeduction : Rat
deriving DecidableEq

/-- Record consumed by late_score, built in merge_single_assignment. -/
structure LateRow where
  assignment : String
  firstName : String
  lastName : String
  afterScore : Rat
  daysLate : Rat
deriving DecidableEq

/-- Python truthiness of the optional penalty list: None and the empty
list are falsy. -/
def pyTruthyPenalty : Option (List PenaltyEntry) → Bool
  | Option.none => false
  | Option.some l => !l.isEmpty

/-- Scan a penalty list in order for the first entry that has a days-late
threshold at least the days late of the record (score.py penalty loops). -/
def firstHit (daysLate : Rat) : List PenaltyEntry → Option PenaltyEntry
  | [] => Option.none
  | p :: ps =>
    match p.daysLateThresh with
    | Option.some t => if daysLate ≤ t then Option.some p else firstHit daysLate ps
    | Option.none => firstHit daysLate ps

/-- Rule-list loop of late_score (score.py lines 105 to 192), with the
week token, assignment token, student name, unpenalized score and days
late precomputed. -/
def lateScoreLoop (week assn student_name : String) (score days_late : Rat) :
    List Adjustment → Rat × AdjInfo
  | [] => (score, AdjInfo.mk false 0)
  | adj :: rest =>
    if week ≠ "W" ++ pyNatStr adj.week then
      lateScoreLoop week assn student_name score days_late rest
    else if adj.student.isNone && adj.assignment.isNone then
      if !pyTruthyPenalty adj.penalty then (score, AdjInfo.mk true 0)
      else lateScoreLoop week assn student_name score days_late rest
    else if adj.student.isNone && !adj.assignment.isNone then
      if assn = adj.assignment.getD "" then
        if !pyTruthyPenalty adj.penalty then (score, AdjInfo.mk true 0)
        else
          match firstHit days_late (adj.penalty.getD []) with
          | Option.some p => ((1 - p.fracDeduction) * score, AdjInfo.mk true p.fracDeduction)
          | Option.none => lateScoreLoop week assn student_name score days_late rest
      else lateScoreLoop week assn student_name score days_late rest
    else if !adj.student.isNone && adj.assignment.isNone then
      if student_name = adj.student.getD "" then
        if !pyTruthyPenalty adj.penalty then (score, AdjInfo.mk true 0)
        else
          match firstHit days_late (adj.penalty.getD []) with
          | Option.some p => ((1 - p.fracDeduction) * score, AdjInfo.mk true p.fracDeduction)
          | Option.none => lateScoreLoop week assn student_name score days_late rest
      else lateScoreLoop week assn student_name score days_late rest
    else
      if student_name = adj.student.getD "" ∧ assn = adj.assignment.getD "" then
        if !pyTruthyPenalty adj.penalty then (score, AdjInfo.mk true 0)
        else
          match firstHit days_late (adj.penalty.getD []) with
          | Option.some p => ((1 - p.fracDeduction) * score, AdjInfo.mk true p.fracDeduction)
          | Option.none => lateScoreLoop week assn student_name score days_late rest
      else lateScoreLoop week assn student_name score days_late rest

/-- Shallow embedding of late_score (score.py lines 95 to 192): split the
assignment name into week and type tokens, build the student name, and
run the rule loop. -/
def late_score (row : LateRow) (adjustments : List Adjustment) : Rat × AdjInfo :=
  let toks := pySplitWs row.assignment
  lateScoreLoop (toks.getD 0 "") (toks.getD 1 "")
    (row.firstName ++ " " ++ row.lastName) row.afterScore row.daysLate adjustments

/-! ### Helper lemmas about stripping and decimal rendering -/

/-- A prefix of a list fixed by dropWhile is itself fixed by dropWhile. -/
theorem prefix_dropWhile_eq_self {p : Char → Bool} {l m : List Char}
    (hp : l <+: m) (hm : m.dropWhile p = m) : l.dropWhile p = l := by
  cases l with
  | nil => rfl
  | cons a l =>
    obtain ⟨t, ht⟩ := hp
    subst ht
    rw [List.cons_append] at hm
    by_cases h : p a
    · rw [List.dropWhile_cons_of_pos h] at hm
      have hlen := congrArg List.length hm
      have hle : (List.dropWhile p (l ++ t)).length ≤ (l ++ t).length :=
        (List.dropWhile_suffix p).sublist.length_le
      simp at hlen hle
      omega
    · rw [List.dropWhile_cons_of_neg h]

/-- Stripping is idempotent on character lists. -/
theorem pyStripL_idem (l : List Char) : pyStripL (pyStripL l) = pyStripL l := by
  unfold pyStripL
  have hpre : List.rdropWhile pyIsSpace (l.dropWhile pyIsSpace) <+: l.dropWhile pyIsSpace :=
    List.rdropWhile_prefix _ _
  rw [prefix_dropWhile_eq_self hpre (List.dropWhile_idempotent _ _)]
  exact List.rdropWhile_idempotent _ _

/-- A list with no whitespace characters is fixed by stripping. -/
theorem pyStripL_eq_self_of_none {l : List Char}
    (h : ∀ c ∈ l, pyIsSpace c = false) : pyStripL l = l := by
  have h1 : l.dropWhile pyIsSpace = l := by
    cases l with
    | nil => rfl
    | cons a l =>
      rw [List.dropWhile_cons, if_neg]
      simp [h a (List.mem_cons_self a l)]
  unfold pyStripL
  rw [h1]
  rw [List.rdropWhile_eq_self_iff]
  intro hl
  simp [h _ (List.getLast_mem hl)]

/-- Stripping is idempotent on strings. -/
theorem pyStrip_idem (s : String) : pyStrip (pyStrip s) = pyStrip s := by
  unfold pyStrip
  exact congrArg String.mk (pyStripL_idem s.data)

/-- A character list avoiding a character is reported as not containing it. -/
theorem pyContainsL_eq_false {l : List Char} {a : Char}
    (h : ∀ c ∈ l, c ≠ a) : pyContainsL l a = false := by
  unfold pyContainsL
  rw [List.any_eq_false]
  intro c hc
  simp [h c hc]

/-- Digit characters are not dots and not whitespace. -/
theorem digitChar_spec (k : Nat) : digitChar k ≠ '.' ∧ pyIsSpace (digitChar k) = false := by
  unfold digitChar
  split <;> exact (by decide)

/-- Every character of the decimal rendering of a natural number is a
digit character, hence not a dot and not whitespace. -/
theorem natDigitsAux_spec (fuel : Nat) :
    ∀ n : Nat, ∀ c ∈ natDigitsAux fuel n, c ≠ '.' ∧ pyIsSpace c = false := by
  induction fuel with
  | zero => intro n c hc; simp [natDigitsAux] at hc
  | succ fuel ih =>
    intro n c hc
    unfold natDigitsAux at hc
    by_cases h : n < 10
    · rw [if_pos h] at hc
      simp at hc
      exact hc ▸ digitChar_spec n
    · rw [if_neg h] at hc
      rcases List.mem_append.mp hc with h1 | h2
      · exact ih _ c h1
      · simp at h2
        exact h2 ▸ digitChar_spec _

/-- Every character of the decimal rendering of an integer is a digit or
a minus sign, hence not a dot and not whitespace. -/
theorem pyIntStrL_spec (n : Int) :
    ∀ c ∈ pyIntStrL n, c ≠ '.' ∧ pyIsSpace c = false := by
  intro c hc
  unfold pyIntStrL at hc
  by_cases h : n < 0
  · rw [if_pos h] at hc
    rcases List.mem_cons.mp hc with h1 | h2
    · exact h1 ▸ (by decide)
    · exact natDigitsAux_spec _ _ c h2
  · rw [if_neg h] at hc
    exact natDigitsAux_spec _ _ c hc

/-- The decimal rendering of an integer is fixed by stripping. -/
theorem pyStrip_pyIntStr (n : Int) : pyStrip (pyIntStr n) = pyIntStr n := by
  unfold pyStrip pyIntStr
  exact congrArg String.mk
    (pyStripL_eq_self_of_none (fun c hc => (pyIntStrL_spec n c hc).2))

/-- The decimal rendering of an integer contains no dot. -/
theorem pyContains_pyIntStr (n : Int) : pyContainsL (pyIntStr n).data '.' = false :=
  pyContainsL_eq_false (fun c hc => (pyIntStrL_spec n c hc).1)

/-- Normalization of a stripped string unfolds to the dot branch. -/
theorem normalize_strV_stripped (t : String) (hst : pyStrip t = t) :
    normalize_student_id (PyVal.strV t) =
      (if pyContainsL t.data '.' then
        match pyFloatParts? t with
        | Option.some p =>
          if floatIsIntegral p then Option.some (pyIntStr (floatIntVal p))
          else Option.some t
        | Option.none => Option.some t
      else Option.some t) := by
  unfold normalize_student_id
  simp only [pyIsNa, pyStr, Bool.false_eq_true, if_false, hst]

/-- Idempotence of normalize_student_id, stated over the re-injection of
its result as a scalar cell. -/
theorem normalize_student_id_idem (v : PyVal) :
    normalize_student_id (toPyVal (normalize_student_id v)) = normalize_student_id v := by
  by_cases hna : pyIsNa v = true
  · have h0 : normalize_student_id v = Option.none := by
      unfold normalize_student_id
      rw [if_pos hna]
    rw [h0]
    unfold toPyVal normalize_student_id
    simp [pyIsNa]
  · have hna' : pyIsNa v = false := by
      exact Bool.not_eq_true _ ▸ eq_false_of_ne_true hna
    have hb : normalize_student_id v =
        (if pyContainsL (pyStrip (pyStr v)).data '.' then
          match pyFloatParts? (pyStrip (pyStr v)) with
          | Option.some p =>
            if floatIsIntegral p then Option.some (pyIntStr (floatIntVal p))
            else Option.some (pyStrip (pyStr v))
          | Option.none => Option.some (pyStrip (pyStr v))
        else Option.some (pyStrip (pyStr v))) := by
      unfold normalize_student_id
      rw [if_neg hna]
    by_cases hdot : pyContainsL (pyStrip (pyStr v)).data '.' = true
    · rw [if_pos hdot] at hb
      cases hp : pyFloatParts? (pyStrip (pyStr v)) with
      | none =>
        rw [hp] at hb
        rw [hb]
        unfold toPyVal
        rw [normalize_strV_stripped _ (pyStrip_idem _), if_pos hdot, hp]
      | some p =>
        rw [hp] at hb
        have hb2 : normalize_student_id v =
            (if floatIsIntegral p then Option.some (pyIntStr (floatIntVal p))
             else Option.some (pyStrip (pyStr v))) := hb
        clear hb
        rename' hb2 => hb
        by_cases hint : floatIsIntegral p = true
        · rw [if_pos hint] at hb
          rw [hb]
          unfold toPyVal
          rw [normalize_strV_stripped _ (pyStrip_pyIntStr _),
            if_neg (by rw [pyContains_pyIntStr]; exact Bool.false_ne_true)]
        · rw [if_neg hint] at hb
          rw [hb]
          unfold toPyVal
          rw [normalize_strV_stripped _ (pyStrip_idem _), if_pos hdot, hp]
          show (if floatIsIntegral p then Option.some (pyIntStr (floatIntVal p))
              else Option.some (pyStrip (pyStr v))) = Option.some (pyStrip (pyStr v))
          rw [if_neg hint]
    · rw [if_neg hdot] at hb
      rw [hb]
      unfold toPyVal
      rw [normalize_strV_stripped _ (pyStrip_idem _), if_neg hdot]

/-! ### Claim theorems -/

/-- C6: normalizeId is idempotent for every representable input, the
float-artifact forms 14788528.0 (string), 14788528 (string) and 14788528
(number) all collapse to one key, and missing or NaN input yields null. -/
theorem normalize_id_idempotent_collapse :
    (∀ v : PyVal,
      normalize_student_id (toPyVal (normalize_student_id v)) = normalize_student_id v) ∧
    normalize_student_id (PyVal.strV "14788528.0") = Option.some "14788528" ∧
    normalize_student_id (PyVal.strV "14788528") = Option.some "14788528" ∧
    normalize_student_id (PyVal.intV 14788528) = Option.some "14788528" ∧
    (∀ v : PyVal, pyIsNa v = true → normalize_student_id v = Option.none) := by
  refine ⟨normalize_student_id_idem, by decide, by decide, by decide, ?_⟩
  intro v hv
  unfold normalize_student_id
  rw [if_pos hv]

/-- Witness for C6: the NaN clause and the idempotence applied at the
float-artifact string. -/
theorem normalize_id_idempotent_collapse_witness :
    normalize_student_id PyVal.nan = Option.none ∧
    normalize_student_id (toPyVal (normalize_student_id (PyVal.strV "14788528.0"))) =
      normalize_student_id (PyVal.strV "14788528.0") :=
  ⟨normalize_id_idempotent_collapse.2.2.2.2 PyVal.nan (by decide),
    normalize_id_idempotent_collapse.1 (PyVal.strV "14788528.0")⟩

/-- C7: findEmailColumn returns a header only if its folded form equals a
school-email alias exactly (all three aliases fold to schoolemail), and a
table whose only email-like headers are the generic Email and
Primary email yields no email column. -/
theorem find_email_column_exact :
    (∀ (cols : List String) (c : String),
      find_email_column cols = Option.some c → canonHdr c = "schoolemail") ∧
    find_email_column ["Email", "Primary email"] = Option.none := by
  refine ⟨?_, by decide⟩
  intro cols c h
  have hp := List.find?_some h
  rw [List.any_eq_true] at hp
  obtain ⟨p, hmem, hbeq⟩ := hp
  have heq : canonHdrPat p = canonHdr c := eq_of_beq hbeq
  have hm : p = "school email" ∨ p = "schoolemail" ∨ p = "school_email" := by
    simpa [emailPatterns] using hmem
  rcases hm with rfl | rfl | rfl
  · rw [← heq]; decide
  · rw [← heq]; decide
  · rw [← heq]; decide

/-- Witness for C7: the exactness clause applied at a header that is
found, and the folded form it must equal. -/
theorem find_email_column_exact_witness :
    canonHdr "School Email" = "schoolemail" :=
  find_email_column_exact.1 ["School Email"] "School Email" (by decide)

/-- C10: the student-id detector matches by bidirectional substring
containment after folding, so any header whose folded form contains id,
or is contained in the alias studentid, is matched, the first matching
header in order winning: Paid, Section ID and the one-letter S are all
reported as the student-id column. -/
theorem find_student_id_substring :
    (∀ c : String, pyIn "id" (canonId c) = true → matchesIdPattern c = true) ∧
    (∀ c : String, pyIn (canonId c) "studentid" = true → matchesIdPattern c = true) ∧
    (∀ (c : String) (rest : List String), matchesIdPattern c = true →
      find_student_id_column (c :: rest) = Option.some c) ∧
    find_student_id_column ["Paid", "Student ID"] = Option.some "Paid" ∧
    find_student_id_column ["Section ID"] = Option.some "Section ID" ∧
    find_student_id_column ["S"] = Option.some "S" := by
  refine ⟨?_, ?_, ?_, by decide, by decide, by decide⟩
  · intro c h
    unfold matchesIdPattern
    rw [List.any_eq_true]
    refine ⟨"id", by decide, ?_⟩
    have hpat : canonIdPat "id" = "id" := by decide
    rw [hpat, h]
    rfl
  · intro c h
    unfold matchesIdPattern
    rw [List.any_eq_true]
    refine ⟨"student id", by decide, ?_⟩
    have hpat : canonIdPat "student id" = "studentid" := by decide
    rw [hpat, h, Bool.or_true]
  · intro c rest h
    unfold find_student_id_column
    rw [List.find?_cons_of_pos _ h]

/-- Witness for C10: the substring clause applied at the header Paid. -/
theorem find_student_id_substring_witness :
    matchesIdPattern "Paid" = true :=
  find_student_id_substring.1 "Paid" (by decide)

/-- Destination table of the C1 scenario: row A with id 111 and username
alice, row B with id 222 and username alice2. -/
def destC1 : LecTable :=
  LecTable.mk true true false
    [LecRow.mk (PyVal.strV "111") (PyVal.strV "alice") PyVal.none,
     LecRow.mk (PyVal.strV "222") (PyVal.strV "alice2") PyVal.none]

/-- C1: the destination lookup tries the normalized-id match first and
falls back to the username match only if the id lookup fails; in the
two-row scenario, the source row with id 111 and email alice2 at x.edu
matches row A (index 0) by id, although the username map would have sent
it to row B (index 1). -/
theorem merge_id_match_priority :
    (∀ (smap umap : String → Option Nat) (sid uname : Option String) (i : Nat),
      pyTruthyS sid = true → smap (sid.getD "") = Option.some i →
      matchRow smap umap sid uname = Option.some (i, Method.byId)) ∧
    matchRow (buildMaps destC1).1 (buildMaps destC1).2
        (normalize_student_id (PyVal.strV "111"))
        (Option.some (extract_username_from_email (PyVal.strV "alice2@x.edu"))) =
      Option.some (0, Method.byId) ∧
    (buildMaps destC1).2 "alice2" = Option.some 1 := by
  refine ⟨?_, by decide, by decide⟩
  intro smap umap sid uname i ht hm
  unfold matchRow
  rw [ht, hm]
  rfl

/-- Witness for C1: the priority clause applied at concrete maps in which
both the id and the username lookup would succeed with different rows. -/
theorem merge_id_match_priority_witness :
    matchRow (fun s => if s = "111" then Option.some 0 else Option.none)
        (fun s => if s = "alice2" then Option.some 1 else Option.none)
        (Option.some "111") (Option.some "alice2") =
      Option.some (0, Method.byId) :=
  merge_id_match_priority.1 _ _ (Option.some "111") (Option.some "alice2") 0
    (by decide) (by decide)

/-- Destination table of the C4 scenario: one row with id 777 and
username alice. -/
def mmC4 : MMLec :=
  MMLec.mk true true [MMLecRow.mk (PyVal.strV "777") (PyVal.strV "alice")]

/-- C4: a source row whose id is absent from the destination index but
whose email local part matches a destination username is still matched by
the username fallback, and when the carried id disagrees, exactly one
mismatch record is produced holding the source id and the normalized
destination id; the row counts as matched (the match result is not
Unmatched). -/
theorem username_fallback_id_mismatch :
    (∀ (t : MMLec) (smap umap : String → Option Nat) (hme : Bool)
      (mic mec : PyVal) (name : String) (i : Nat),
      matchRow smap umap (normalize_student_id mic)
          (if hme then Option.some (extract_username_from_email mec) else Option.none) =
        Option.some (i, Method.byEmail) →
      pyTruthyS (normalize_student_id mic) = true →
      t.hasId = true →
      pyTruthyVal (t.rows.getD i mmDefaultRow).idCell = true →
      masterRowStep t smap umap true hme mic mec name =
        (Option.some (i, Method.byEmail),
          [MismatchDetail.mk name (if hme then Option.some mec else Option.none)
            ((normalize_student_id mic).getD "")
            (normalize_student_id (t.rows.getD i mmDefaultRow).idCell)])) ∧
    masterRowStep mmC4 (buildMasterMaps mmC4).1 (buildMasterMaps mmC4).2 true true
        (PyVal.strV "999") (PyVal.strV "alice@x.edu") "Doe, Jane" =
      (Option.some (0, Method.byEmail),
        [MismatchDetail.mk "Doe, Jane" (Option.some (PyVal.strV "alice@x.edu")) "999"
          (Option.some "777")]) := by
  refine ⟨?_, by decide⟩
  intro t smap umap hme mic mec name i hmatch htr hid hcell
  unfold masterRowStep
  simp only [if_true]
  rw [hmatch]
  simp only [htr, if_true, hid, hcell]

/-- Witness for C4: the mismatch clause applied at the concrete scenario
table with source id 999 and destination id 777. -/
theorem username_fallback_id_mismatch_witness :
    masterRowStep mmC4 (buildMasterMaps mmC4).1 (buildMasterMaps mmC4).2 true true
        (PyVal.strV "999") (PyVal.strV "alice@y.org") "R, S" =
      (Option.some (0, Method.byEmail),
        [MismatchDetail.mk "R, S" (Option.some (PyVal.strV "alice@y.org")) "999"
          (Option.some "777")]) := by
  have h := username_fallback_id_mismatch.1 mmC4 (buildMasterMaps mmC4).1
    (buildMasterMaps mmC4).2 true (PyVal.strV "999") (PyVal.strV "alice@y.org") "R, S" 0
    (by decide) (by decide) (by decide) (by decide)
  simpa using h

/-- The names of the tagged assignment columns are the assignment-shaped
columns in original order. -/
theorem taggedCols_map_fst (cols : List String) :
    (taggedCols cols).map (fun x => x.1) =
      cols.filter (fun c => (parseAssignCol c).isSome) := by
  induction cols with
  | nil => rfl
  | cons c cs ih =>
    unfold taggedCols at ih ⊢
    cases h : parseAssignCol c <;>
      simp [List.filterMap_cons, List.filter_cons, h, ih]

/-- Every tagged column carries exactly its parsed key. -/
theorem taggedCols_mem {cols : List String} {x : String × Nat × Nat}
    (hx : x ∈ taggedCols cols) : parseAssignCol x.1 = Option.some x.2 := by
  unfold taggedCols at hx
  rw [List.mem_filterMap] at hx
  obtain ⟨c, _, hmap⟩ := hx
  cases h : parseAssignCol c with
  | none => rw [h] at hmap; simp at hmap
  | some k =>
    rw [h] at hmap
    simp at hmap
    rw [← hmap]
    exact h

/-- Every element of the sorted tagged list carries its parsed key. -/
theorem sortedTagged_mem {cols : List String} {x : String × Nat × Nat}
    (hx : x ∈ List.insertionSort tagLe (taggedCols cols)) :
    parseAssignCol x.1 = Option.some x.2 :=
  taggedCols_mem ((List.perm_insertionSort tagLe (taggedCols cols)).mem_iff.mp hx)

/-- C5: Column Ordering produces exactly the non-assignment columns in
their original relative order followed by the assignment columns sorted
ascending by (week, typeRank), with the rank table PA 0, CA 1, IL 2,
OL 3 and default rank 99 for any other type string. -/
theorem sort_columns_ordering (cols : List String) :
    ∃ A : List String,
      sort_assignment_columns cols =
        cols.filter (fun c => (parseAssignCol c).isNone) ++ A ∧
      A.Perm (cols.filter (fun c => (parseAssignCol c).isSome)) ∧
      A.Pairwise (fun a b => ∀ ka kb, parseAssignCol a = Option.some ka →
        parseAssignCol b = Option.some kb → keyLe ka kb) ∧
      assignTypeOrder "PA" = 0 ∧ assignTypeOrder "CA" = 1 ∧
      assignTypeOrder "IL" = 2 ∧ assignTypeOrder "OL" = 3 ∧
      (∀ t : String, t ≠ "PA" → t ≠ "CA" → t ≠ "IL" → t ≠ "OL" →
        assignTypeOrder t = 99) := by
  refine ⟨(List.insertionSort tagLe (taggedCols cols)).map (fun x => x.1), ?_, ?_, ?_,
    by decide, by decide, by decide, by decide, ?_⟩
  · rfl
  · exact ((List.perm_insertionSort tagLe (taggedCols cols)).map _).trans
      (taggedCols_map_fst cols ▸ List.Perm.refl _)
  · rw [List.pairwise_map]
    have hs : (List.insertionSort tagLe (taggedCols cols)).Pairwise tagLe :=
      List.sorted_insertionSort tagLe (taggedCols cols)
    refine hs.imp_of_mem ?_
    intro a b ha hb hab ka kb hka hkb
    have ha' := sortedTagged_mem ha
    have hb' := sortedTagged_mem hb
    rw [ha'] at hka
    rw [hb'] at hkb
    cases hka
    cases hkb
    exact hab
  · intro t h1 h2 h3 h4
    unfold assignTypeOrder
    rw [if_neg h1, if_neg h2, if_neg h3, if_neg h4]

/-- Witness for C5: the ordering theorem applied at a concrete column
list, together with the default-rank clause applied at a concrete
unrecognized type. -/
theorem sort_columns_ordering_witness :
    sort_assignment_columns ["Name", "W2 CA", "W1 PA"] = ["Name", "W1 PA", "W2 CA"] ∧
    assignTypeOrder "XX" = 99 := by
  obtain ⟨A, h1, h2, h3, _, _, _, _, h99⟩ := sort_columns_ordering ["Name", "W2 CA", "W1 PA"]
  refine ⟨by decide, h99 "XX" (by decide) (by decide) (by decide) (by decide)⟩

/-- Tagging distributes over appending column lists. -/
theorem taggedCols_append (l1 l2 : List String) :
    taggedCols (l1 ++ l2) = taggedCols l1 ++ taggedCols l2 := by
  unfold taggedCols
  exact List.filterMap_append l1 l2 _

/-- Tagging the names of already-tagged columns reconstructs the tags. -/
theorem taggedCols_map_fst_self (l : List (String × Nat × Nat))
    (h : ∀ x ∈ l, parseAssignCol x.1 = Option.some x.2) :
    taggedCols (l.map (fun x => x.1)) = l := by
  induction l with
  | nil => rfl
  | cons x xs ih =>
    unfold taggedCols at ih ⊢
    rw [List.map_cons, List.filterMap_cons, h x (List.mem_cons_self x xs)]
    simp only [Option.map_some']
    rw [ih (fun y hy => h y (List.mem_cons_of_mem x hy))]

/-- Tagging a list of non-assignment columns yields nothing. -/
theorem taggedCols_none (l : List String)
    (h : ∀ c ∈ l, parseAssignCol c = Option.none) :
    taggedCols l = [] := by
  unfold taggedCols
  rw [List.filterMap_eq_nil_iff]
  intro c hc
  rw [h c hc]
  rfl

/-- C9: Column Ordering is idempotent. -/
theorem sort_columns_idempotent (cols : List String) :
    sort_assignment_columns (sort_assignment_columns cols) = sort_assignment_columns cols := by
  have hNA : ∀ c ∈ cols.filter (fun c => (parseAssignCol c).isNone),
      parseAssignCol c = Option.none := by
    intro c hc
    have := (List.mem_filter.mp hc).2
    simpa using this
  have hS : ∀ x ∈ List.insertionSort tagLe (taggedCols cols),
      parseAssignCol x.1 = Option.some x.2 := fun x hx => sortedTagged_mem hx
  have h1 : (sort_assignment_columns cols).filter (fun c => (parseAssignCol c).isNone) =
      cols.filter (fun c => (parseAssignCol c).isNone) := by
    unfold sort_assignment_columns
    rw [List.filter_append]
    have e1 : (cols.filter (fun c => (parseAssignCol c).isNone)).filter
        (fun c => (parseAssignCol c).isNone) =
        cols.filter (fun c => (parseAssignCol c).isNone) := by
      rw [List.filter_eq_self]
      intro c hc
      simp [hNA c hc]
    have e2 : (((List.insertionSort tagLe (taggedCols cols)).map (fun x => x.1)).filter
        (fun c => (parseAssignCol c).isNone)) = [] := by
      rw [List.filter_eq_nil_iff]
      intro c hc
      rw [List.mem_map] at hc
      obtain ⟨x, hx, rfl⟩ := hc
      simp [hS x hx]
    rw [e1, e2, List.append_nil]
  have h2 : taggedCols (sort_assignment_columns cols) =
      List.insertionSort tagLe (taggedCols cols) := by
    have hrw : sort_assignment_columns cols =
        cols.filter (fun c => (parseAssignCol c).isNone) ++
          (List.insertionSort tagLe (taggedCols cols)).map (fun x => x.1) := rfl
    rw [hrw, taggedCols_append, taggedCols_none _ hNA, List.nil_append,
      taggedCols_map_fst_self _ (fun x hx => sortedTagged_mem hx)]
  have hout : sort_assignment_columns (sort_assignment_columns cols) =
      (sort_assignment_columns cols).filter (fun c => (parseAssignCol c).isNone) ++
        (List.insertionSort tagLe (taggedCols (sort_assignment_columns cols))).map
          (fun x => x.1) := rfl
  rw [hout, h1, h2,
    List.Sorted.insertionSort_eq (List.sorted_insertionSort tagLe (taggedCols cols))]
  rfl

/-- A non-global rule is structurally applicable to a record when its
present student and assignment fields equal the fields of the record
(the week test is handled separately). -/
def ruleApplies (assn sname : String) (adj : Adjustment) : Prop :=
  (adj.student = Option.none ∧
    ∃ a, adj.assignment = Option.some a ∧ assn = a) ∨
  ((∃ st, adj.student = Option.some st ∧ sname = st) ∧
    adj.assignment = Option.none) ∨
  ((∃ st, adj.student = Option.some st ∧ sname = st) ∧
    (∃ a, adj.assignment = Option.some a ∧ assn = a))

/-- C2 (amended): within a week-matching rule, a falsy penalty (absent,
null or empty list) returns the unpenalized score immediately with a
matched indication, for all four shapes; a penalty list is scanned in
order for the first entry with daysLate at most the threshold and the
deduction applied, but only in the three shapes with a student or an
assignment key present: a global rule with a non-empty penalty list is
skipped and evaluation continues with later rules. -/
theorem late_score_rule_shapes (week assn sname : String) (score dl : Rat)
    (adj : Adjustment) (rest : List Adjustment)
    (hweek : week = "W" ++ pyNatStr adj.week) :
    (adj.student = Option.none → adj.assignment = Option.none →
      pyTruthyPenalty adj.penalty = false →
      lateScoreLoop week assn sname score dl (adj :: rest) =
        (score, AdjInfo.mk true 0)) ∧
    (adj.student = Option.none → adj.assignment = Option.none →
      pyTruthyPenalty adj.penalty = true →
      lateScoreLoop week assn sname score dl (adj :: rest) =
        lateScoreLoop week assn sname score dl rest) ∧
    (ruleApplies assn sname adj → pyTruthyPenalty adj.penalty = false →
      lateScoreLoop week assn sname score dl (adj :: rest) =
        (score, AdjInfo.mk true 0)) ∧
    (∀ l p, ruleApplies assn sname adj → adj.penalty = Option.some l →
      firstHit dl l = Option.some p →
      lateScoreLoop week assn sname score dl (adj :: rest) =
        ((1 - p.fracDeduction) * score, AdjInfo.mk true p.fracDeduction)) ∧
    (∀ l, ruleApplies assn sname adj → adj.penalty = Option.some l → l ≠ [] →
      firstHit dl l = Option.none →
      lateScoreLoop week assn sname score dl (adj :: rest) =
        lateScoreLoop week assn sname score dl rest) := by
  subst hweek
  refine ⟨?_, ?_, ?_, ?_, ?_⟩
  · intro hs ha hp
    simp [lateScoreLoop, hs, ha, hp]
  · intro hs ha hp
    simp [lateScoreLoop, hs, ha, hp]
  · intro happ hp
    rcases happ with ⟨hs, a, ha, rfl⟩ | ⟨⟨st, hs, rfl⟩, ha⟩ | ⟨⟨st, hs, rfl⟩, a, ha, rfl⟩ <;>
      simp [lateScoreLoop, hs, ha, hp]
  · intro l p happ hp hf
    have hne : l ≠ [] := by
      intro h
      subst h
      simp [firstHit] at hf
    have hpt : pyTruthyPenalty (Option.some l) = true := by
      simpa [pyTruthyPenalty] using hne
    rcases happ with ⟨hs, a, ha, rfl⟩ | ⟨⟨st, hs, rfl⟩, ha⟩ | ⟨⟨st, hs, rfl⟩, a, ha, rfl⟩ <;>
      simp [lateScoreLoop, hs, ha, hp, hpt, hf]
  · intro l happ hp hne hf
    have hpt : pyTruthyPenalty (Option.some l) = true := by
      simpa [pyTruthyPenalty] using hne
    rcases happ with ⟨hs, a, ha, rfl⟩ | ⟨⟨st, hs, rfl⟩, ha⟩ | ⟨⟨st, hs, rfl⟩, a, ha, rfl⟩ <;>
      simp [lateScoreLoop, hs, ha, hp, hpt, hf]

/-- Record of the C2 counterexample: assignment W1 PA, one day late,
unpenalized score 80. -/
def c2row : LateRow := LateRow.mk "W1 PA" "A" "B" 80 1

/-- Global rule of the C2 counterexample: week 1, no student key, no
assignment key, penalty list with threshold 2 and deduction one tenth. -/
def c2rule : Adjustment :=
  Adjustment.mk 1 Option.none Option.none
    (Option.some [PenaltyEntry.mk (Option.some 2) (1/10)])

/-- Counterexample to C2 as stated: the global rule is structurally
applicable (week matches, no present fields to check) and its penalty
list has a matching first entry, so the claim requires the deduction
72 with a matched indication; the code returns the unpenalized 80 with
no match, because the global shape never scans a penalty list. -/
theorem late_score_global_list_cex :
    late_score c2row [c2rule] = (80, AdjInfo.mk false 0) ∧
    late_score c2row [c2rule] ≠ ((1 - 1/10) * 80, AdjInfo.mk true (1/10)) := by
  have h : late_score c2row [c2rule] = (80, AdjInfo.mk false 0) := by
    simp [late_score, lateScoreLoop, c2row, c2rule, pySplitWs, splitWsAux, pyIsSpace,
      pyNatStr, natDigitsAux, digitChar, pyTruthyPenalty]
  refine ⟨h, ?_⟩
  rw [h]
  intro hc
  have h2 := congrArg (fun x => x.2.matched) hc
  simp at h2

/-- Witness for C2: the global-skip clause applied at the concrete
global rule with a non-empty penalty list. -/
theorem late_score_rule_shapes_witness :
    lateScoreLoop "W1" "PA" "A B" 80 1 [c2rule] =
      lateScoreLoop "W1" "PA" "A B" 80 1 [] :=
  (late_score_rule_shapes "W1" "PA" "A B" 80 1 c2rule [] (by decide)).2.1
    rfl rfl (by decide)

/-- Rule of the C8 scenario: week 1, assignment PA, penalty list with
days-late threshold 2 and fractional deduction one tenth. -/
def c8rule : Adjustment :=
  Adjustment.mk 1 Option.none (Option.some "PA")
    (Option.some [PenaltyEntry.mk (Option.some 2) (1/10)])

/-- Record of the C8 scenario, one and a half days late. -/
def c8rowA : LateRow := LateRow.mk "W1 PA" "Jane" "Doe" 80 (3/2)

/-- Record of the C8 scenario, five days late. -/
def c8rowB : LateRow := LateRow.mk "W1 PA" "Jane" "Doe" 80 5

/-- C8: under the single rule week 1, assignment PA, threshold 2 and
deduction one tenth, the record one and a half days late receives
80 times nine tenths equal 72 with a match, and the record five days
late receives the unpenalized 80 with no match. -/
theorem late_score_numeric_example :
    late_score c8rowA [c8rule] = (72, AdjInfo.mk true (1/10)) ∧
    (72 : Rat) = 80 * (1 - 1/10) ∧
    late_score c8rowB [c8rule] = (80, AdjInfo.mk false 0) := by
  refine ⟨?_, by norm_num, ?_⟩
  · simp [late_score, lateScoreLoop, c8rowA, c8rule, pySplitWs, splitWsAux, pyIsSpace,
      pyNatStr, natDigitsAux, digitChar, pyTruthyPenalty, firstHit]
    norm_num
  · simp [late_score, lateScoreLoop, c8rowB, c8rule, pySplitWs, splitWsAux, pyIsSpace,
      pyNatStr, natDigitsAux, digitChar, pyTruthyPenalty, firstHit]
    norm_num

/-- A successful row lookup forces the observed key to be truthy. -/
theorem matchRow_truthy {smap umap : String → Option Nat} {sid uname : Option String}
    {x : Nat × Method} (h : matchRow smap umap sid uname = Option.some x) :
    pyTruthyS (pyOrStr sid uname) = true := by
  unfold matchRow at h
  by_cases hs : pyTruthyS sid = true
  · unfold pyOrStr
    rw [if_pos hs]
    exact hs
  · rw [if_neg hs] at h
    unfold matchByUsername at h
    by_cases hu : pyTruthyS uname = true
    · unfold pyOrStr
      rw [if_neg hs]
      exact hu
    · rw [if_neg hu] at h
      simp at h

/-- Processing one source row preserves the containment of the matched
keys in the observed keys. -/
theorem processRow_subset {smap umap : String → Option Nat} {hasEmail : Bool}
    {acc : MergeAcc} (r : SrcRow) (h : acc.matchedKeys ⊆ acc.allKeys) :
    (processRow smap umap hasEmail acc r).matchedKeys ⊆
      (processRow smap umap hasEmail acc r).allKeys := by
  unfold processRow
  generalize (if hasEmail then Option.some (extract_username_from_email r.emailCell)
      else Option.none : Option String) = un
  generalize normalize_student_id r.idCell = sid
  dsimp only
  split
  next x heq =>
    have ht := matchRow_truthy heq
    simp only [ht, if_true]
    exact Finset.insert_subset_insert _ h
  next heq =>
    by_cases ht : pyTruthyS (pyOrStr sid un) = true
    · simp only [ht, if_true]
      exact h.trans (Finset.subset_insert _ _)
    · simp only [if_neg ht]
      exact h

/-- Processing one destination table preserves the containment of the
matched keys in the observed keys. -/
theorem processLecture_subset (src : SrcTable) (t : LecTable) :
    ∀ acc : MergeAcc, acc.matchedKeys ⊆ acc.allKeys →
    (processLecture src acc t).matchedKeys ⊆ (processLecture src acc t).allKeys := by
  intro acc h
  unfold processLecture
  by_cases hu : (!t.hasId && !t.hasEmail && !t.hasUsername) = true
  · rw [if_pos hu]
    exact h
  · rw [if_neg hu]
    generalize acc = b at h ⊢
    induction src.rows generalizing b with
    | nil => exact h
    | cons r rs ih =>
      rw [List.foldl_cons]
      exact ih _ (processRow_subset r h)

/-- After one full source pass, the matched keys are contained in the
observed keys. -/
theorem processAssignment_subset (lectures : List LecTable) (src : SrcTable) :
    (processAssignment lectures src).matchedKeys ⊆
      (processAssignment lectures src).allKeys := by
  unfold processAssignment
  have h0 : (MergeAcc.mk ∅ ∅ : MergeAcc).matchedKeys ⊆
      (MergeAcc.mk ∅ ∅ : MergeAcc).allKeys := Finset.Subset.refl _
  generalize (MergeAcc.mk ∅ ∅ : MergeAcc) = b at h0 ⊢
  induction lectures generalizing b with
  | nil => exact h0
  | cons t ts ih =>
    rw [List.foldl_cons]
    exact ih _ (processLecture_subset src t b h0)

/-- C3 (amended): within one source pass, every observed student key
falls in exactly one of the matched keys and the orphaned keys (the
orphaned keys are observed minus matched, computed after all destination
tables have been processed); across several source files of the
assignments workflow the claim fails, see the counterexample. -/
theorem orphan_partition_per_source (lectures : List LecTable) (src : SrcTable) :
    (processAssignment lectures src).matchedKeys ⊆
      (processAssignment lectures src).allKeys ∧
    ∀ k ∈ (processAssignment lectures src).allKeys,
      (k ∈ (processAssignment lectures src).matchedKeys ∧
        k ∉ orphanedKeys lectures src) ∨
      (k ∉ (processAssignment lectures src).matchedKeys ∧
        k ∈ orphanedKeys lectures src) := by
  refine ⟨processAssignment_subset lectures src, ?_⟩
  intro k hk
  unfold orphanedKeys
  by_cases hm : k ∈ (processAssignment lectures src).matchedKeys
  · exact Or.inl ⟨hm, by simp [Finset.mem_sdiff, hm]⟩
  · exact Or.inr ⟨hm, Finset.mem_sdiff.mpr ⟨hk, hm⟩⟩

/-- Destination table of the C3 counterexample: one row with id 777 and
username alice. -/
def lecC3 : LecTable :=
  LecTable.mk true true false
    [LecRow.mk (PyVal.strV "777") (PyVal.strV "alice") PyVal.none]

/-- First source file of the C3 counterexample: id 111 with the email
alice at x.edu, matched by the username fallback. -/
def srcC3a : SrcTable :=
  SrcTable.mk true [SrcRow.mk (PyVal.strV "111") (PyVal.strV "alice@x.edu")]

/-- Second source file of the C3 counterexample: the same id 111 but no
school-email column, so the row cannot be matched. -/
def srcC3b : SrcTable :=
  SrcTable.mk false [SrcRow.mk (PyVal.strV "111") PyVal.none]

/-- Counterexample to C3 as stated: after the full batch over the two
source files, the key 111 is both globally matched (via the first file)
and orphaned (via the second file) — it does not appear in exactly one
of the two sets. -/
theorem orphan_partition_cex :
    Option.some "111" ∈ (mergeBatch [lecC3] [srcC3a, srcC3b]).1 ∧
    Option.some "111" ∈ (mergeBatch [lecC3] [srcC3a, srcC3b]).2 := by
  constructor <;> decide

/-- Witness for C3: the per-source partition applied at the first
counterexample file and the key 111. -/
theorem orphan_partition_per_source_witness :
    (Option.some "111" ∈ (processAssignment [lecC3] srcC3a).matchedKeys ∧
      Option.some "111" ∉ orphanedKeys [lecC3] srcC3a) ∨
    (Option.some "111" ∉ (processAssignment [lecC3] srcC3a).matchedKeys ∧
      Option.some "111" ∈ orphanedKeys [lecC3] srcC3a) :=
  (orphan_partition_per_source [lecC3] srcC3a).2 (Option.some "111") (by decide)

end Pyzy
